import Mathlib

/-!
Verification of the tkr-llm-client inference gateway core.

Shallow embedding of the Python sources under `src/llm_server/`:
Python floats are modelled as rationals (`Rat`), Python ints as `Int`,
Python strings as `String` or `List Char`, fallible code as `Except String`.
-/

namespace LLMServer

/-- Python substring containment (the `in` operator on strings), as used by
`_detect_harmony_stop_reason`, `ErrorClassifier.classify` and the streaming
channel filter in `gpt_oss_adapter.py`. -/
def strContains (needle hay : String) : Bool :=
  decide (needle.data <:+: hay.data)

/-- Python `str.strip()` on a character list: drop whitespace from both ends. -/
def pyStrip (s : List Char) : List Char :=
  ((s.dropWhile Char.isWhitespace).reverse.dropWhile Char.isWhitespace).reverse

/-- Boolean success test for `Except` values (a Python call that did not raise). -/
def isOkE {ε α : Type} : Except ε α → Bool
  | .ok _ => true
  | .error _ => false

@[simp] lemma isOkE_ok {ε α : Type} (a : α) : isOkE (Except.ok a : Except ε α) = true := rfl

@[simp] lemma isOkE_error {ε α : Type} (e : ε) : isOkE (Except.error e : Except ε α) = false := rfl

lemma isOkE_ite_error {ε α : Type} {c : Prop} [Decidable c] (e : ε) (r : Except ε α) :
    isOkE (if c then .error e else r) = true ↔ ¬ c ∧ isOkE r = true := by
  split_ifs with h <;> simp [isOkE, h]

/-! ## Sampling parameters (`llm_server/sampling/params.py`) -/

/-- The `SamplingParams` dataclass of `sampling/params.py`. -/
structure SamplingParams where
  temperature : Rat
  top_p : Rat
  top_k : Int
  max_tokens : Int
  repetition_penalty : Rat
  presence_penalty : Rat
  frequency_penalty : Rat
  stop_sequences : List String
  min_tokens : Int
  seed : Option Int
deriving Repr, DecidableEq

/-- The dataclass defaults of `SamplingParams`. -/
def defaultSamplingParams : SamplingParams :=
  ⟨1, 1, 0, 512, 1, 0, 0, [], 0, none⟩

/-- `SamplingParams.validate`: the sequential range checks, returning the first
failure as a `ValueError` message. The `isinstance` checks on `stop_sequences`
are vacuous in the typed embedding. -/
def SamplingParams.validate (p : SamplingParams) : Except String Unit :=
  if ¬ (0 ≤ p.temperature ∧ p.temperature ≤ 2) then
    .error "temperature must be between 0.0 and 2.0"
  else if ¬ (0 ≤ p.top_p ∧ p.top_p ≤ 1) then
    .error "top_p must be between 0.0 and 1.0"
  else if p.top_k < 0 then
    .error "top_k must be non-negative"
  else if p.max_tokens ≤ 0 then
    .error "max_tokens must be positive"
  else if p.min_tokens < 0 then
    .error "min_tokens must be non-negative"
  else if p.min_tokens > p.max_tokens then
    .error "min_tokens cannot exceed max_tokens"
  else if p.repetition_penalty < 0 then
    .error "repetition_penalty must be non-negative"
  else if ¬ (-2 ≤ p.presence_penalty ∧ p.presence_penalty ≤ 2) then
    .error "presence_penalty must be between -2.0 and 2.0"
  else if ¬ (-2 ≤ p.frequency_penalty ∧ p.frequency_penalty ≤ 2) then
    .error "frequency_penalty must be between -2.0 and 2.0"
  else
    match p.seed with
    | some s => if s < 0 then .error "seed must be non-negative" else .ok ()
    | none => .ok ()

/-- Construction of a `SamplingParams` value: `__init__` runs `__post_init__`,
which calls `validate`; an invalid field set raises `ValueError`. -/
def mkSamplingParams (p : SamplingParams) : Except String SamplingParams :=
  match p.validate with
  | .ok _ => .ok p
  | .error e => .error e

/-- Keyword overrides accepted by `SamplingParams.copy`. -/
structure SamplingOverrides where
  temperature : Option Rat
  top_p : Option Rat
  top_k : Option Int
  max_tokens : Option Int
  repetition_penalty : Option Rat
  presence_penalty : Option Rat
  frequency_penalty : Option Rat
  stop_sequences : Option (List String)
  min_tokens : Option Int
  seed : Option (Option Int)

/-- No keyword overrides. -/
def noOverrides : SamplingOverrides :=
  ⟨none, none, none, none, none, none, none, none, none, none⟩

/-- `SamplingParams.copy`: `to_dict`, apply overrides, rebuild through
`from_dict`, which re-runs construction and therefore re-validates. -/
def SamplingParams.copy (p : SamplingParams) (o : SamplingOverrides) :
    Except String SamplingParams :=
  mkSamplingParams
    ⟨o.temperature.getD p.temperature, o.top_p.getD p.top_p, o.top_k.getD p.top_k,
     o.max_tokens.getD p.max_tokens, o.repetition_penalty.getD p.repetition_penalty,
     o.presence_penalty.getD p.presence_penalty, o.frequency_penalty.getD p.frequency_penalty,
     o.stop_sequences.getD p.stop_sequences, o.min_tokens.getD p.min_tokens,
     o.seed.getD p.seed⟩

/-- The domain constraints that the spec states for validated sampling
parameters (section 3 table of the spec). -/
def samplingInvariants (p : SamplingParams) : Prop :=
  0 ≤ p.min_tokens ∧ p.min_tokens ≤ p.max_tokens ∧
  0 ≤ p.temperature ∧ p.temperature ≤ 2 ∧
  0 ≤ p.top_p ∧ p.top_p ≤ 1 ∧
  0 ≤ p.top_k ∧ 1 ≤ p.max_tokens ∧
  0 ≤ p.repetition_penalty ∧
  -2 ≤ p.presence_penalty ∧ p.presence_penalty ≤ 2 ∧
  -2 ≤ p.frequency_penalty ∧ p.frequency_penalty ≤ 2 ∧
  (∀ s ∈ p.seed, 0 ≤ s)

instance (o : Option Int) : Decidable (∀ s ∈ o, (0:Int) ≤ s) :=
  match o with
  | none => isTrue (by intro s hs; cases hs)
  | some a => decidable_of_iff (0 ≤ a) (by simp)

instance (p : SamplingParams) : Decidable (samplingInvariants p) := by
  unfold samplingInvariants
  infer_instance

/-- Helper: validation succeeds exactly when the spec's domain constraints hold. -/
lemma validate_isOk_iff (p : SamplingParams) :
    isOkE p.validate = true ↔ samplingInvariants p := by
  unfold SamplingParams.validate samplingInvariants
  cases hs : p.seed with
  | none =>
    simp only [hs, isOkE_ite_error, not_not, not_lt, not_le, isOkE_ok, and_true]
    constructor
    · rintro ⟨⟨a1, a2⟩, ⟨a3, a4⟩, a5, a6, a7, a8, a9, ⟨a10, a11⟩, ⟨a12, a13⟩⟩
      exact ⟨a7, a8, a1, a2, a3, a4, a5, by omega, a9, a10, a11, a12, a13,
        by intro s h; cases h⟩
    · rintro ⟨b1, b2, b3, b4, b5, b6, b7, b8, b9, b10, b11, b12, b13, -⟩
      exact ⟨⟨b3, b4⟩, ⟨b5, b6⟩, b7, by omega, b1, b2, b9, ⟨b10, b11⟩, ⟨b12, b13⟩⟩
  | some s =>
    simp only [hs, isOkE_ite_error, not_not, not_lt, not_le, isOkE_ok, and_true]
    constructor
    · rintro ⟨⟨a1, a2⟩, ⟨a3, a4⟩, a5, a6, a7, a8, a9, ⟨a10, a11⟩, ⟨a12, a13⟩, a14⟩
      refine ⟨a7, a8, a1, a2, a3, a4, a5, by omega, a9, a10, a11, a12, a13, ?_⟩
      intro x hx
      simp only [Option.mem_def, Option.some.injEq] at hx
      omega
    · rintro ⟨b1, b2, b3, b4, b5, b6, b7, b8, b9, b10, b11, b12, b13, b14⟩
      exact ⟨⟨b3, b4⟩, ⟨b5, b6⟩, b7, by omega, b1, b2, b9, ⟨b10, b11⟩, ⟨b12, b13⟩,
        b14 s rfl⟩

/-- Helper: construction and validation succeed together. -/
lemma isOkE_mkSamplingParams (p : SamplingParams) :
    isOkE (mkSamplingParams p) = isOkE p.validate := by
  unfold mkSamplingParams
  cases p.validate <;> rfl

/-- Helper: a successful construction returns the fields unchanged. -/
lemma mkSamplingParams_ok_eq (p q : SamplingParams) (h : mkSamplingParams p = .ok q) :
    q = p := by
  unfold mkSamplingParams at h
  split at h
  · injection h with h2; exact h2.symm
  · cases h

/-- Claim C5: every `SamplingParams` successfully constructed (directly, via
`from_dict`, or via `copy` with overrides, which re-validates) satisfies
`0 ≤ min_tokens ≤ max_tokens`, `0 ≤ temperature ≤ 2`, `0 ≤ top_p ≤ 1`,
`top_k ≥ 0`, `max_tokens ≥ 1`, `repetition_penalty ≥ 0`, presence and
frequency penalties in `[-2, 2]`, and `seed` absent or `≥ 0`; construction
with any value outside these domains raises `ValueError`. -/
theorem samplingParams_validation_correct (p : SamplingParams) :
    (∀ q, mkSamplingParams p = .ok q → samplingInvariants q) ∧
    (∀ o q, SamplingParams.copy p o = .ok q → samplingInvariants q) ∧
    (¬ samplingInvariants p → ∃ e, mkSamplingParams p = .error e) := by
  refine ⟨?_, ?_, ?_⟩
  · intro q hq
    have hqp := mkSamplingParams_ok_eq p q hq
    subst hqp
    have hok : isOkE (mkSamplingParams q) = true := by rw [hq]; rfl
    rw [isOkE_mkSamplingParams] at hok
    exact (validate_isOk_iff q).mp hok
  · intro o q hq
    unfold SamplingParams.copy at hq
    have hqp := mkSamplingParams_ok_eq _ q hq
    have hok : isOkE (mkSamplingParams q) = true := by rw [hqp, hq]; rfl
    rw [isOkE_mkSamplingParams] at hok
    exact (validate_isOk_iff q).mp hok
  · intro hbad
    cases hmk : mkSamplingParams p with
    | ok q =>
      exfalso
      apply hbad
      have hok : isOkE (mkSamplingParams p) = true := by rw [hmk]; rfl
      rw [isOkE_mkSamplingParams] at hok
      exact (validate_isOk_iff p).mp hok
    | error e => exact ⟨e, rfl⟩

/-- Witness for C5 at concrete inputs: the defaults construct successfully and
satisfy the invariants, and a negative-temperature record is rejected. -/
theorem samplingParams_validation_correct_witness :
    mkSamplingParams defaultSamplingParams = .ok defaultSamplingParams ∧
    samplingInvariants defaultSamplingParams ∧
    ¬ samplingInvariants ⟨-1, 1, 0, 512, 1, 0, 0, [], 0, none⟩ ∧
    (∃ e, mkSamplingParams ⟨-1, 1, 0, 512, 1, 0, 0, [], 0, none⟩ = .error e) := by
  have h1 : mkSamplingParams defaultSamplingParams = .ok defaultSamplingParams := by rfl
  have h2 : ¬ samplingInvariants ⟨-1, 1, 0, 512, 1, 0, 0, [], 0, none⟩ := by decide
  exact ⟨h1, (samplingParams_validation_correct defaultSamplingParams).1 _ h1, h2,
    (samplingParams_validation_correct _).2.2 h2⟩

/-! ## Generation metrics (`llm_server/inference/metrics.py`) -/

/-- The `GenerationMetrics` dataclass fields (the `timestamp` wall-clock field
is not modelled). -/
structure GenerationMetrics where
  prompt_tokens : Int
  tokens_generated : Int
  latency_ms : Int
  time_to_first_token_ms : Option Int
  tokens_per_second : Rat
  finish_reason : String
deriving Repr, DecidableEq

/-- `GenerationMetrics` construction: `__post_init__` recomputes
`tokens_per_second` only when both `latency_ms` and `tokens_generated` are
positive. `tps` is the value passed for the `tokens_per_second` field
(dataclass default `0.0`). -/
def mkGenerationMetrics (prompt_tokens tokens_generated latency_ms : Int)
    (ttft : Option Int) (tps : Rat) (finish_reason : String) : GenerationMetrics :=
  if 0 < latency_ms ∧ 0 < tokens_generated then
    ⟨prompt_tokens, tokens_generated, latency_ms, ttft,
     ((tokens_generated : Rat) / (latency_ms : Rat)) * 1000, finish_reason⟩
  else
    ⟨prompt_tokens, tokens_generated, latency_ms, ttft, tps, finish_reason⟩

/-- Claim C10: with the default `tokens_per_second` of `0.0`, construction of a
`GenerationMetrics` record never divides by zero: `tokens_per_second` equals
`tokens_generated / latency_ms * 1000` when both `latency_ms` and
`tokens_generated` are positive, and remains `0.0` whenever `latency_ms = 0`
or `tokens_generated = 0`. -/
theorem generationMetrics_tps_safe (pt tg lat : Int) (ttft : Option Int) (fr : String) :
    (0 < lat → 0 < tg →
      (mkGenerationMetrics pt tg lat ttft 0 fr).tokens_per_second =
        ((tg : Rat) / (lat : Rat)) * 1000) ∧
    ((lat = 0 ∨ tg = 0) →
      (mkGenerationMetrics pt tg lat ttft 0 fr).tokens_per_second = 0) := by
  constructor
  · intro h1 h2
    unfold mkGenerationMetrics
    rw [if_pos ⟨h1, h2⟩]
  · intro h
    unfold mkGenerationMetrics
    rw [if_neg]
    rintro ⟨h1, h2⟩
    rcases h with h | h <;> omega

/-- Witness for C10: a 5-token generation over 10 ms yields 500 tokens/s, and a
0 ms generation leaves the rate at 0. -/
theorem generationMetrics_tps_safe_witness :
    (mkGenerationMetrics 1 5 10 none 0 "stop").tokens_per_second = ((5 : Rat) / 10) * 1000 ∧
    (mkGenerationMetrics 1 5 0 none 0 "stop").tokens_per_second = 0 := by
  constructor
  · exact (generationMetrics_tps_safe 1 5 10 none "stop").1 (by norm_num) (by norm_num)
  · exact (generationMetrics_tps_safe 1 5 0 none "stop").2 (Or.inl rfl)

/-! ## Harmony stop-reason detection (`gpt_oss_adapter.py`) -/

/-- `GPTOSSAdapter._detect_harmony_stop_reason`: substring tests on the raw
engine output. -/
def detectHarmonyStopReason (rawOutput : String) : String :=
  if strContains "<|return|>" rawOutput then "stop"
  else if strContains "<|call|>" rawOutput then "tool_use"
  else "length"

/-- The finish-reason normalization in `GPTOSSAdapter.generate`: an engine
finish reason of `eos` overrides a Harmony `length` verdict. -/
def generateFinishReason (rawOutput engineFinishReason : String) : String :=
  if detectHarmonyStopReason rawOutput = "length" ∧ engineFinishReason = "eos" then "stop"
  else detectHarmonyStopReason rawOutput

/-- Helper: detection returns `stop` when a return token is present. -/
lemma detect_stop (rawOutput : String) (h : strContains "<|return|>" rawOutput = true) :
    detectHarmonyStopReason rawOutput = "stop" := by
  unfold detectHarmonyStopReason
  rw [if_pos h]

/-- Helper: detection returns `tool_use` for a call token without a return token. -/
lemma detect_tool_use (rawOutput : String) (h1 : strContains "<|return|>" rawOutput = false)
    (h2 : strContains "<|call|>" rawOutput = true) :
    detectHarmonyStopReason rawOutput = "tool_use" := by
  unfold detectHarmonyStopReason
  rw [h1, if_neg (by simp), if_pos h2]

/-- Helper: detection returns `length` when neither terminal token is present. -/
lemma detect_length (rawOutput : String) (h1 : strContains "<|return|>" rawOutput = false)
    (h2 : strContains "<|call|>" rawOutput = false) :
    detectHarmonyStopReason rawOutput = "length" := by
  unfold detectHarmonyStopReason
  rw [h1, h2, if_neg (by simp), if_neg (by simp)]

/-- Claim C4: output containing a return token maps to `stop`; otherwise a call
token maps to `tool_use`; otherwise, with no terminal token present and
`tokens_generated ≥ max_tokens`, the finish reason is `length`, except that an
engine-reported `eos` is normalized to `stop`. -/
theorem harmony_stop_reason_mapping (rawOutput engineFinishReason : String)
    (tokens_generated max_tokens : Int) :
    (strContains "<|return|>" rawOutput = true →
      generateFinishReason rawOutput engineFinishReason = "stop") ∧
    (strContains "<|return|>" rawOutput = false →
      strContains "<|call|>" rawOutput = true →
      generateFinishReason rawOutput engineFinishReason = "tool_use") ∧
    (strContains "<|return|>" rawOutput = false →
      strContains "<|call|>" rawOutput = false →
      max_tokens ≤ tokens_generated → engineFinishReason ≠ "eos" →
      generateFinishReason rawOutput engineFinishReason = "length") ∧
    (strContains "<|return|>" rawOutput = false →
      strContains "<|call|>" rawOutput = false → engineFinishReason = "eos" →
      generateFinishReason rawOutput engineFinishReason = "stop") := by
  refine ⟨?_, ?_, ?_, ?_⟩
  · intro h1
    unfold generateFinishReason
    rw [detect_stop rawOutput h1]
    split_ifs <;> rfl
  · intro h1 h2
    unfold generateFinishReason
    rw [detect_tool_use rawOutput h1 h2]
    rw [if_neg (by rintro ⟨hh, -⟩; exact absurd hh (by decide))]
  · intro h1 h2 h3 h4
    unfold generateFinishReason
    rw [detect_length rawOutput h1 h2]
    rw [if_neg (by rintro ⟨-, he⟩; exact h4 he)]
  · intro h1 h2 h3
    unfold generateFinishReason
    rw [detect_length rawOutput h1 h2]
    rw [if_pos ⟨rfl, h3⟩]

/-- Witness for C4 at concrete outputs covering all four cases. -/
theorem harmony_stop_reason_mapping_witness :
    generateFinishReason "answer<|return|>" "eos" = "stop" ∧
    generateFinishReason "pre<|call|>args" "x" = "tool_use" ∧
    generateFinishReason "plain text" "x" = "length" ∧
    generateFinishReason "plain text" "eos" = "stop" := by
  refine ⟨(harmony_stop_reason_mapping "answer<|return|>" "eos" 0 0).1 (by decide),
    (harmony_stop_reason_mapping "pre<|call|>args" "x" 0 0).2.1 (by decide) (by decide),
    (harmony_stop_reason_mapping "plain text" "x" 5 5).2.2.1 (by decide) (by decide)
      (by omega) (by decide),
    (harmony_stop_reason_mapping "plain text" "eos" 0 0).2.2.2 (by decide) (by decide) rfl⟩

/-! ## Retry backoff (`llm_server/inference/recovery.py`) -/

/-- The `RetryConfig` dataclass (the `retry_on` exception filter is not needed
for the delay computation). -/
structure RetryConfig where
  max_retries : Nat
  initial_delay : Rat
  max_delay : Rat
  exponential_base : Rat
  jitter : Bool
deriving Repr, DecidableEq

/-- The dataclass defaults of `RetryConfig`. -/
def defaultRetryConfig : RetryConfig :=
  ⟨3, 1, 30, 2, true⟩

/-- `RetryStrategy._calculate_delay`: exponential backoff capped at
`max_delay`, then multiplied by a jitter factor when jitter is enabled.
`randUnit` stands for the `random.random()` draw in `[0, 1)`. -/
def calculateDelay (cfg : RetryConfig) (attempt : Nat) (randUnit : Rat) : Rat :=
  let delay := cfg.initial_delay * cfg.exponential_base ^ (attempt - 1)
  let capped := min delay cfg.max_delay
  if cfg.jitter then capped * (1 + (randUnit - 1/2) * (1/2)) else capped

/-- Counterexample to C7: with `initial_delay = 40`, `max_delay = 30`, jitter
enabled and otherwise default fields, the first retry attempt with a random
draw of `0.9` (inside `[0, 1)`) yields a delay of 36 s, which exceeds
`max_delay = 30` s: the jitter is applied after the cap, so the delay does
not stay below `max_delay`. -/
theorem retry_delay_cap_counterexample :
    (0 : Rat) ≤ 9/10 ∧ (9/10 : Rat) < 1 ∧
    (⟨3, 40, 30, 2, true⟩ : RetryConfig).jitter = true ∧
    calculateDelay ⟨3, 40, 30, 2, true⟩ 1 (9/10) = 36 ∧
    (⟨3, 40, 30, 2, true⟩ : RetryConfig).max_delay < 36 := by
  refine ⟨by norm_num, by norm_num, rfl, ?_, by norm_num⟩
  norm_num [calculateDelay]

/-- Claim C7 (amended): for every attempt `n ≥ 1` the delay is computed as
`initial_delay * exponential_base ^ (n-1)` capped at `max_delay`, and the
±25% uniform jitter is applied after the cap, so with jitter enabled the
result lies within 25% of the capped exponential value (and may therefore
exceed `max_delay` by up to 25%); the default configuration is
`initial_delay = 1 s`, `exponential_base = 2`, `max_delay = 30 s`,
`max_retries = 3`. -/
theorem retry_delay_amended (cfg : RetryConfig) (attempt : Nat) (randUnit : Rat)
    (h0 : 0 ≤ randUnit) (h1 : randUnit < 1) (hj : cfg.jitter = true)
    (hinit : 0 ≤ cfg.initial_delay) (hbase : 0 ≤ cfg.exponential_base)
    (hmax : 0 ≤ cfg.max_delay) :
    (3/4) * min (cfg.initial_delay * cfg.exponential_base ^ (attempt - 1)) cfg.max_delay ≤
      calculateDelay cfg attempt randUnit ∧
    calculateDelay cfg attempt randUnit ≤
      (5/4) * min (cfg.initial_delay * cfg.exponential_base ^ (attempt - 1)) cfg.max_delay ∧
    defaultRetryConfig.initial_delay = 1 ∧ defaultRetryConfig.exponential_base = 2 ∧
    defaultRetryConfig.max_delay = 30 ∧ defaultRetryConfig.max_retries = 3 := by
  have hcap : 0 ≤ min (cfg.initial_delay * cfg.exponential_base ^ (attempt - 1)) cfg.max_delay :=
    le_min (mul_nonneg hinit (pow_nonneg hbase _)) hmax
  unfold calculateDelay
  rw [hj]
  simp only [if_true]
  set capped := min (cfg.initial_delay * cfg.exponential_base ^ (attempt - 1)) cfg.max_delay
  refine ⟨?_, ?_, rfl, rfl, rfl, rfl⟩
  · nlinarith [hcap, h0, h1]
  · nlinarith [hcap, h0, h1]

/-- Witness for C7 at the default configuration, attempt 1 and a zero random
draw. -/
theorem retry_delay_amended_witness :
    (3/4) * min (defaultRetryConfig.initial_delay *
        defaultRetryConfig.exponential_base ^ (1 - 1)) defaultRetryConfig.max_delay ≤
      calculateDelay defaultRetryConfig 1 0 ∧
    calculateDelay defaultRetryConfig 1 0 ≤
      (5/4) * min (defaultRetryConfig.initial_delay *
        defaultRetryConfig.exponential_base ^ (1 - 1)) defaultRetryConfig.max_delay := by
  have h := retry_delay_amended defaultRetryConfig 1 0 (by norm_num) (by norm_num) rfl
    (by norm_num [defaultRetryConfig]) (by norm_num [defaultRetryConfig])
    (by norm_num [defaultRetryConfig])
  exact ⟨h.1, h.2.1⟩

/-! ## Error classification and degradation (`llm_server/inference/recovery.py`) -/

/-- The error taxonomy of `ErrorType`. -/
inductive ErrorType where
  | recoverable
  | degradable
  | fatal
deriving DecidableEq, Repr

/-- The `ErrorClassification` dataclass (the `details` field is omitted as it
carries no control flow). -/
structure ErrorClassification where
  error_type : ErrorType
  can_retry : Bool
  can_degrade : Bool
  suggested_action : String
deriving Repr, DecidableEq

/-- A Python exception as seen by `ErrorClassifier.classify`: its `isinstance`
class tests and its message string. -/
structure PyError where
  isModelNotLoaded : Bool
  isContextLengthExceeded : Bool
  message : String
deriving Repr, DecidableEq

/-- ASCII lowercasing of one character (Python `str.lower()`; the classifier
keywords are all ASCII). -/
def pyToLowerChar (c : Char) : Char :=
  if 'A' ≤ c ∧ c ≤ 'Z' then Char.ofNat (c.toNat + 32) else c

/-- Python `str.lower()` on the message string. -/
def pyToLower (s : String) : String :=
  ⟨s.data.map pyToLowerChar⟩

/-- The lowercased message `error_str = str(error).lower()` of `classify`. -/
def errorStrOf (e : PyError) : String :=
  pyToLower e.message

/-- `ErrorClassifier.classify`: sequential classification over the exception
class and the lowercased message. -/
def classifyError (e : PyError) : ErrorClassification :=
  if e.isModelNotLoaded then
    ⟨.fatal, false, false, "Load model before inference"⟩
  else if e.isContextLengthExceeded then
    ⟨.degradable, true, true, "Reduce max_tokens or truncate prompt"⟩
  else if strContains "memory" (errorStrOf e) || strContains "oom" (errorStrOf e) ||
      strContains "out of memory" (errorStrOf e) then
    ⟨.degradable, true, true, "Reduce max_tokens or batch size"⟩
  else if strContains "timeout" (errorStrOf e) || strContains "connection" (errorStrOf e) ||
      strContains "temporary" (errorStrOf e) || strContains "unavailable" (errorStrOf e) ||
      strContains "busy" (errorStrOf e) then
    ⟨.recoverable, true, false, "Retry with exponential backoff"⟩
  else
    ⟨.recoverable, true, false, "Retry once, then fail"⟩

/-- Python `int()` truncation toward zero on a rational: for `q = num/den`
with `den > 0`, T-division of `num` by `den` truncates toward zero. -/
def pyIntOfRat (q : Rat) : Int :=
  Int.tdiv q.num (q.den : Int)

/-- The reduced token budget of `GracefulDegradation.reduce_max_tokens`:
`max(1, int(max_tokens * reduction_factor))`. -/
def reducedMaxTokens (p : SamplingParams) (reduction_factor : Rat) : Int :=
  max 1 (pyIntOfRat ((p.max_tokens : Rat) * reduction_factor))

/-- `GracefulDegradation.reduce_max_tokens`: rebuild the parameters through
`copy`, which re-validates. -/
def reduceMaxTokens (p : SamplingParams) (reduction_factor : Rat) :
    Except String SamplingParams :=
  p.copy { noOverrides with max_tokens := some (reducedMaxTokens p reduction_factor) }

/-- `GracefulDegradation.create_degraded_params`: dispatch on the
classification and the error text. -/
def createDegradedParams (p : SamplingParams) (e : PyError) :
    Except String (Option SamplingParams) :=
  if (classifyError e).can_degrade = false then .ok none
  else if strContains "memory" (errorStrOf e) || strContains "oom" (errorStrOf e) then
    match reduceMaxTokens p (1/2) with
    | .ok q => .ok (some q)
    | .error msg => .error msg
  else if e.isContextLengthExceeded || strContains "context" (errorStrOf e) then
    match reduceMaxTokens p (7/10) with
    | .ok q => .ok (some q)
    | .error msg => .error msg
  else .ok none

/-- Helper: a successful construction from invariants. -/
lemma mkSamplingParams_eq_ok (q : SamplingParams) (h : samplingInvariants q) :
    mkSamplingParams q = .ok q := by
  have h2 := (validate_isOk_iff q).mpr h
  unfold mkSamplingParams
  cases hv : q.validate with
  | ok u => rfl
  | error e => rw [hv] at h2; simp [isOkE] at h2

/-- Helper: the record produced by overriding only `max_tokens`. -/
lemma copy_max_tokens_eq (p : SamplingParams) (r : Int) :
    SamplingParams.copy p { noOverrides with max_tokens := some r } =
      mkSamplingParams ⟨p.temperature, p.top_p, p.top_k, r, p.repetition_penalty,
        p.presence_penalty, p.frequency_penalty, p.stop_sequences, p.min_tokens, p.seed⟩ := rfl

/-- Helper: reducing `max_tokens` succeeds when `min_tokens` still fits. -/
lemma reduceMaxTokens_ok (p : SamplingParams) (factor : Rat)
    (hp : samplingInvariants p) (hfit : p.min_tokens ≤ reducedMaxTokens p factor) :
    reduceMaxTokens p factor =
      .ok ⟨p.temperature, p.top_p, p.top_k, reducedMaxTokens p factor, p.repetition_penalty,
        p.presence_penalty, p.frequency_penalty, p.stop_sequences, p.min_tokens, p.seed⟩ := by
  unfold reduceMaxTokens
  rw [copy_max_tokens_eq]
  apply mkSamplingParams_eq_ok
  obtain ⟨i1, i2, i3, i4, i5, i6, i7, i8, i9, i10, i11, i12, i13, i14⟩ := hp
  refine ⟨i1, hfit, i3, i4, i5, i6, i7, le_max_left 1 _, i9, i10, i11, i12, i13, i14⟩

/-- Helper: reducing `max_tokens` raises when `min_tokens` no longer fits. -/
lemma reduceMaxTokens_error (p : SamplingParams) (factor : Rat)
    (hfit : reducedMaxTokens p factor < p.min_tokens) :
    isOkE (reduceMaxTokens p factor) = false := by
  unfold reduceMaxTokens
  rw [copy_max_tokens_eq, isOkE_mkSamplingParams]
  cases hv : SamplingParams.validate _ with
  | ok u =>
    exfalso
    have h2 : isOkE (SamplingParams.validate
        ⟨p.temperature, p.top_p, p.top_k, reducedMaxTokens p factor, p.repetition_penalty,
         p.presence_penalty, p.frequency_penalty, p.stop_sequences, p.min_tokens, p.seed⟩) =
        true := by rw [hv]; rfl
    have h3 := (validate_isOk_iff _).mp h2
    have h4 := h3.2.1
    simp only at h4
    omega
  | error e => rfl

/-- Concrete input for the C8 counterexample: a valid parameter set whose
`min_tokens` equals its `max_tokens`. -/
def tightParams : SamplingParams :=
  ⟨1, 1, 0, 100, 1, 0, 0, [], 100, none⟩

/-- A memory error, degradable by classification. -/
def memoryError : PyError :=
  ⟨false, false, "Out of memory"⟩

/-- Counterexample to C8: `tightParams` is a valid `SamplingParams`
(`min_tokens = max_tokens = 100`) and the memory error is degradable, yet
`create_degraded_params` does not return degraded parameters: the halved
`max_tokens` (50) violates `min_tokens ≤ max_tokens`, so the re-validation
inside `copy` raises `ValueError` instead. -/
theorem create_degraded_params_counterexample :
    mkSamplingParams tightParams = .ok tightParams ∧
    (classifyError memoryError).can_degrade = true ∧
    createDegradedParams tightParams memoryError = .error "min_tokens cannot exceed max_tokens" := by
  refine ⟨by rfl, by rfl, ?_⟩
  have h1 : ((tightParams.max_tokens : Rat) * (1/2)) = 50 := by
    norm_num [tightParams]
  have hred : reducedMaxTokens tightParams (1/2) = 50 := by
    unfold reducedMaxTokens pyIntOfRat
    rw [h1]
    decide
  have herr : reduceMaxTokens tightParams (1/2) = .error "min_tokens cannot exceed max_tokens" := by
    unfold reduceMaxTokens
    rw [copy_max_tokens_eq, hred]
    rfl
  unfold createDegradedParams
  rw [if_neg (by decide), if_pos (by decide), herr]

/-- Claim C8 (amended): for a valid `SamplingParams` and a degradable error,
`create_degraded_params` returns parameters whose `max_tokens` is
`max(1, int(max_tokens * 0.5))` for memory/OOM errors and
`max(1, int(max_tokens * 0.7))` for context-length-exceeded errors, all other
fields unchanged, provided `min_tokens` does not exceed the reduced budget;
when `min_tokens` exceeds it, the re-validation inside `copy` raises
`ValueError` instead of returning parameters. It returns `None` for errors
whose classification does not allow degradation. -/
theorem create_degraded_params_amended (p : SamplingParams) (e : PyError)
    (hp : samplingInvariants p) :
    ((classifyError e).can_degrade = false → createDegradedParams p e = .ok none) ∧
    (e.isModelNotLoaded = false →
      (strContains "memory" (errorStrOf e) || strContains "oom" (errorStrOf e)) = true →
      p.min_tokens ≤ reducedMaxTokens p (1/2) →
      createDegradedParams p e =
        .ok (some ⟨p.temperature, p.top_p, p.top_k, reducedMaxTokens p (1/2),
          p.repetition_penalty, p.presence_penalty, p.frequency_penalty,
          p.stop_sequences, p.min_tokens, p.seed⟩)) ∧
    (e.isModelNotLoaded = false →
      (strContains "memory" (errorStrOf e) || strContains "oom" (errorStrOf e)) = false →
      e.isContextLengthExceeded = true →
      p.min_tokens ≤ reducedMaxTokens p (7/10) →
      createDegradedParams p e =
        .ok (some ⟨p.temperature, p.top_p, p.top_k, reducedMaxTokens p (7/10),
          p.repetition_penalty, p.presence_penalty, p.frequency_penalty,
          p.stop_sequences, p.min_tokens, p.seed⟩)) ∧
    (e.isModelNotLoaded = false →
      (strContains "memory" (errorStrOf e) || strContains "oom" (errorStrOf e)) = true →
      reducedMaxTokens p (1/2) < p.min_tokens →
      isOkE (createDegradedParams p e) = false) := by
  refine ⟨?_, ?_, ?_, ?_⟩
  · intro hcd
    unfold createDegradedParams
    rw [if_pos hcd]
  · intro hnl hmem hfit
    have hcd : (classifyError e).can_degrade = true := by
      unfold classifyError
      rw [hnl]
      simp only [Bool.false_eq_true, if_false]
      rcases Bool.or_eq_true_iff.mp hmem with hm | hm <;>
        cases hcle : e.isContextLengthExceeded <;>
        simp [hm]
    unfold createDegradedParams
    rw [hcd]
    simp only [Bool.true_eq_false, if_false]
    rw [if_pos hmem, reduceMaxTokens_ok p (1/2) hp hfit]
  · intro hnl hmem hcle hfit
    have hcd : (classifyError e).can_degrade = true := by
      unfold classifyError
      rw [hnl, hcle]
      simp
    unfold createDegradedParams
    rw [hcd]
    simp only [Bool.true_eq_false, if_false]
    rw [if_neg (by rw [hmem]; simp), if_pos (by rw [hcle]; simp),
      reduceMaxTokens_ok p (7/10) hp hfit]
  · intro hnl hmem hfit
    have hcd : (classifyError e).can_degrade = true := by
      unfold classifyError
      rw [hnl]
      simp only [Bool.false_eq_true, if_false]
      rcases Bool.or_eq_true_iff.mp hmem with hm | hm <;>
        cases hcle : e.isContextLengthExceeded <;>
        simp [hm]
    unfold createDegradedParams
    rw [hcd]
    simp only [Bool.true_eq_false, if_false]
    rw [if_pos hmem]
    have herr := reduceMaxTokens_error p (1/2) hfit
    cases hv : reduceMaxTokens p (1/2) with
    | ok q => rw [hv] at herr; simp [isOkE] at herr
    | error msg => rfl

/-- Witness for C8 (amended) at concrete inputs: an OOM error against the
default parameters halves `max_tokens` from 512 to 256. -/
theorem create_degraded_params_amended_witness :
    createDegradedParams defaultSamplingParams memoryError =
      .ok (some ⟨1, 1, 0, 256, 1, 0, 0, [], 0, none⟩) := by
  have h1 : ((defaultSamplingParams.max_tokens : Rat) * (1/2)) = 256 := by
    norm_num [defaultSamplingParams]
  have hred : reducedMaxTokens defaultSamplingParams (1/2) = 256 := by
    unfold reducedMaxTokens pyIntOfRat
    rw [h1]
    decide
  have h := (create_degraded_params_amended defaultSamplingParams memoryError
    (by decide)).2.1 rfl (by decide) (by rw [hred]; decide)
  rw [h, hred]
  rfl

/-! ## Message validation and role mapping
(`GPTOSSAdapter._validate_messages` and
`HarmonyPromptBuilder.build_conversation`) -/

/-- Validation of a single `{role, content}` message in
`GPTOSSAdapter._validate_messages`: the role must be one of `system`, `user`,
`assistant` and the stripped content must be non-empty. Key presence is
structural in the typed embedding. -/
def validateMessage (msg : String × String) : Except String Unit :=
  if ¬ (msg.1 = "system" ∨ msg.1 = "user" ∨ msg.1 = "assistant") then
    .error ("Invalid role: " ++ msg.1)
  else if (pyStrip msg.2.data).isEmpty then
    .error "Message content cannot be empty"
  else .ok ()

/-- The per-message loop of `_validate_messages`. -/
def validateMessagesGo : List (String × String) → Except String Unit
  | [] => .ok ()
  | m :: rest =>
    match validateMessage m with
    | .ok _ => validateMessagesGo rest
    | .error e => .error e

/-- `GPTOSSAdapter._validate_messages`: empty list check, then the per-message
loop. -/
def validateMessages (messages : List (String × String)) : Except String Unit :=
  if messages.isEmpty then .error "Messages list cannot be empty"
  else validateMessagesGo messages

/-- The internal `Role` values reachable from `build_conversation`. -/
inductive HarmonyRole where
  | system
  | developer
  | user
  | assistant
deriving DecidableEq, Repr

/-- The role mapping of `HarmonyPromptBuilder.build_conversation`: the role
string is lowercased, then matched against `user`, `assistant`, `system`,
`developer`; anything else raises `ValueError`. -/
def mapRoleString (roleStr : String) : Except String HarmonyRole :=
  if pyToLower roleStr = "user" then .ok .user
  else if pyToLower roleStr = "assistant" then .ok .assistant
  else if pyToLower roleStr = "system" then .ok .system
  else if pyToLower roleStr = "developer" then .ok .developer
  else .error ("Invalid role: " ++ pyToLower roleStr)

/-- Counterexample to C6: the adapter rejects the role string `developer` with
an invalid-input error, although the claim says it is accepted. -/
theorem roles_developer_rejected_counterexample :
    validateMessages [("developer", "hi")] = .error "Invalid role: developer" := by
  rfl

/-- Claim C6 (amended): the adapter's message validation accepts exactly the
role strings `system`, `user`, `assistant` (rejecting `developer` and all
others with an invalid-input error), while the Harmony builder's
`build_conversation` lowercases the role and maps exactly (case-insensitive)
`user`, `assistant`, `system`, `developer` into the internal `Role` set,
rejecting all others with `ValueError`. -/
theorem roles_mapping_amended (roleStr content : String)
    (hc : (pyStrip content.data).isEmpty = false) :
    (isOkE (validateMessages [(roleStr, content)]) = true ↔
      (roleStr = "system" ∨ roleStr = "user" ∨ roleStr = "assistant")) ∧
    (isOkE (mapRoleString roleStr) = true ↔
      (pyToLower roleStr = "user" ∨ pyToLower roleStr = "assistant" ∨
       pyToLower roleStr = "system" ∨ pyToLower roleStr = "developer")) := by
  constructor
  · unfold validateMessages validateMessagesGo validateMessage
    simp only [List.isEmpty_cons, Bool.false_eq_true, if_false]
    by_cases hrole : roleStr = "system" ∨ roleStr = "user" ∨ roleStr = "assistant"
    · rw [if_neg (not_not_intro hrole), if_neg (by rw [hc]; simp)]
      simp [hrole, validateMessagesGo]
    · rw [if_pos hrole]
      simp [hrole]
  · unfold mapRoleString
    split_ifs with h1 h2 h3 h4 <;> simp_all

/-- Witness for C6 (amended): `user` passes the adapter validation and the
capitalized `Developer` maps through the builder. -/
theorem roles_mapping_amended_witness :
    (pyStrip "hi".data).isEmpty = false ∧
    isOkE (validateMessages [("user", "hi")]) = true ∧
    isOkE (mapRoleString "Developer") = true := by
  refine ⟨by decide, ?_, ?_⟩
  · exact ((roles_mapping_amended "user" "hi" (by decide)).1).mpr (Or.inr (Or.inl rfl))
  · exact ((roles_mapping_amended "Developer" "hi" (by decide)).2).mpr
      (Or.inr (Or.inr (Or.inr (by decide))))

/-! ## Harmony prompt building (`GPTOSSAdapter._build_prompt`) -/

/-- `GPTOSSAdapter._build_harmony_system_message`: identity, cutoff, date,
reasoning level mapped from temperature, channel declaration. `datetime.now`
is modelled by the `currentDate` parameter. -/
def buildHarmonySystemMessage (temperature : Rat) (currentDate : String) : String :=
  "<|start|>system<|message|>" ++
  "You are ChatGPT, a large language model trained by OpenAI.\n" ++
  "Knowledge cutoff: 2024-06\n" ++
  "Current date: " ++ currentDate ++ "\n\n" ++
  "Reasoning: " ++
  (if temperature ≤ 3/10 then "low"
   else if temperature ≥ 4/5 then "high" else "medium") ++ "\n\n" ++
  "# Valid channels: analysis, commentary, final. " ++
  "Channel must be included for every message.<|end|>"

/-- The first `system`-role message content, as found by the loop in
`_build_harmony_developer_message`. -/
def firstSystemContent (messages : List (String × String)) : Option String :=
  (messages.find? (fun m => m.1 == "system")).map (fun m => m.2)

/-- The developer instructions: the first system message content, or the
default when it is missing or falsy (empty). -/
def developerInstructions (messages : List (String × String)) : String :=
  match firstSystemContent messages with
  | some c => if c = "" then "You are a helpful AI assistant." else c
  | none => "You are a helpful AI assistant."

/-- `GPTOSSAdapter._build_harmony_developer_message`. -/
def buildHarmonyDeveloperMessage (messages : List (String × String)) : String :=
  "<|start|>developer<|message|># Instructions\n\n" ++
    developerInstructions messages ++ "<|end|>"

/-- One message of `_build_harmony_conversation`: system messages are skipped,
user and assistant turns are wrapped in Harmony frames (roles other than the
three contribute nothing, matching the if/elif chain). -/
def renderConversationMessage (m : String × String) : String :=
  if m.1 = "system" then ""
  else if m.1 = "user" then "<|start|>user<|message|>" ++ m.2 ++ "<|end|>"
  else if m.1 = "assistant" then
    "<|start|>assistant<|channel|>final<|message|>" ++ m.2 ++ "<|end|>"
  else ""

/-- `GPTOSSAdapter._build_harmony_conversation`: concatenation of the rendered
messages. -/
def buildHarmonyConversation (messages : List (String × String)) : String :=
  String.join (messages.map renderConversationMessage)

/-- `GPTOSSAdapter._build_prompt`: system, developer, conversation, and the
completion trigger. -/
def buildPrompt (messages : List (String × String)) (temperature : Rat)
    (currentDate : String) : String :=
  buildHarmonySystemMessage temperature currentDate ++
  buildHarmonyDeveloperMessage messages ++
  buildHarmonyConversation messages ++ "<|start|>assistant"

/-- Modelled from the spec wording of C9: the per-message conversation forms
(`user` and `assistant` frames, system skipped). -/
def specRenderMessage (m : String × String) : String :=
  if m.1 = "user" then "<|start|>user<|message|>" ++ m.2 ++ "<|end|>"
  else if m.1 = "assistant" then
    "<|start|>assistant<|channel|>final<|message|>" ++ m.2 ++ "<|end|>"
  else ""

/-- Modelled from the spec wording of C9: the conversation block. -/
def specConversationBlock (messages : List (String × String)) : String :=
  String.join (messages.map specRenderMessage)

/-- Helper: the source rendering agrees with the spec's per-message forms. -/
lemma renderConversationMessage_eq_spec (m : String × String) :
    renderConversationMessage m = specRenderMessage m := by
  unfold renderConversationMessage specRenderMessage
  by_cases h1 : m.1 = "system"
  · rw [if_pos h1, if_neg (by rw [h1]; decide), if_neg (by rw [h1]; decide)]
  · rw [if_neg h1]

/-- Helper: the conversation blocks agree. -/
lemma buildHarmonyConversation_eq_spec (messages : List (String × String)) :
    buildHarmonyConversation messages = specConversationBlock messages := by
  unfold buildHarmonyConversation specConversationBlock
  rw [funext renderConversationMessage_eq_spec]

/-- Claim C9: for every validated message list and generation params, the
built prompt is the concatenation of the system block, the developer block
(header `# Instructions` followed by the first system message content or the
default instructions), and the conversation block (user frames, assistant
frames on the `final` channel, system skipped), and it ends with
`<|start|>assistant` with no trailing `<|end|>`. -/
theorem build_prompt_structure (messages : List (String × String)) (temperature : Rat)
    (currentDate : String)
    (hroles : ∀ m ∈ messages, m.1 = "system" ∨ m.1 = "user" ∨ m.1 = "assistant") :
    buildPrompt messages temperature currentDate =
      buildHarmonySystemMessage temperature currentDate ++
      ("<|start|>developer<|message|># Instructions\n\n" ++
        developerInstructions messages ++ "<|end|>") ++
      specConversationBlock messages ++ "<|start|>assistant" ∧
    "<|start|>assistant".data <:+ (buildPrompt messages temperature currentDate).data ∧
    ¬ ("<|end|>".data <:+ (buildPrompt messages temperature currentDate).data) := by
  refine ⟨?_, ?_, ?_⟩
  · unfold buildPrompt buildHarmonyDeveloperMessage
    rw [buildHarmonyConversation_eq_spec]
  · unfold buildPrompt
    rw [String.data_append]
    exact List.suffix_append _ _
  · unfold buildPrompt
    rw [String.data_append]
    intro hsuf
    have hpre := List.reverse_prefix.mpr hsuf
    rw [List.reverse_append] at hpre
    have htake := List.prefix_iff_eq_take.mp hpre
    have hlen : ("<|end|>".data.reverse).length = 7 := by rfl
    rw [hlen, List.take_append_of_le_length (by decide)] at htake
    exact absurd htake (by decide)

/-- Witness for C9 at a concrete three-message conversation. -/
theorem build_prompt_structure_witness :
    buildPrompt [("system", "Be nice."), ("user", "Hi"), ("assistant", "Hello")]
        (1/2) "2025-10-27" =
      buildHarmonySystemMessage (1/2) "2025-10-27" ++
      ("<|start|>developer<|message|># Instructions\n\n" ++
        developerInstructions [("system", "Be nice."), ("user", "Hi"), ("assistant", "Hello")] ++
        "<|end|>") ++
      specConversationBlock [("system", "Be nice."), ("user", "Hi"), ("assistant", "Hello")] ++
      "<|start|>assistant" ∧
    "<|start|>assistant".data <:+
      (buildPrompt [("system", "Be nice."), ("user", "Hi"), ("assistant", "Hello")]
        (1/2) "2025-10-27").data ∧
    ¬ ("<|end|>".data <:+
      (buildPrompt [("system", "Be nice."), ("user", "Hi"), ("assistant", "Hello")]
        (1/2) "2025-10-27").data) :=
  build_prompt_structure [("system", "Be nice."), ("user", "Hi"), ("assistant", "Hello")]
    (1/2) "2025-10-27" (by decide)

/-! ## Harmony response parsing
(`HarmonyResponseParser.parse_response_tokens` in `prompts/harmony_native.py`) -/

/-- A message produced by the openai-harmony `StreamableParser`: its channel
(possibly absent or empty) and extracted text content
(`_extract_text_from_message`). -/
structure HMessage where
  channel : Option String
  content : String

/-- The operations of the external openai-harmony `StreamableParser` that
`parse_response_tokens` relies on, over an abstract parser state `σ`.
`process` and `processEos` may raise; `messages` reads the accumulated
messages. The package is outside this repository, so the claim is settled for
every possible behaviour of these operations. -/
structure HarmonyStreamParser (σ : Type) where
  process : σ → Int → Except String σ
  processEos : σ → Except String σ
  messages : σ → List HMessage

/-- The `ParsedHarmonyResponse` dataclass of `harmony_parser_interface.py`.
Numeric metadata values are stored as rendered strings. -/
structure ParsedHarmonyResponse where
  final : String
  analysis : Option String
  commentary : Option String
  channels : Option (List (String × String))
  metadata : List (String × String)

/-- Python dict assignment `d[k] = v` on an insertion-ordered map. -/
def upsert (m : List (String × String)) (k v : String) : List (String × String) :=
  match m with
  | [] => [(k, v)]
  | (k0, v0) :: rest => if k0 = k then (k0, v) :: rest else (k0, v0) :: upsert rest k v

/-- The token loop of `parse_response_tokens`: per-token `process` exceptions
are caught and logged, leaving the parser state unchanged. -/
def runParserTokens {σ : Type} (P : HarmonyStreamParser σ) (init : σ)
    (tokenIds : List Int) : σ :=
  tokenIds.foldl (fun s t =>
    match P.process s t with
    | .ok s2 => s2
    | .error _ => s) init

/-- The channel-extraction loop of `parse_response_tokens`, with the early
`break` when `extract_final_only` finds the final channel. Returns
`(channels_dict, final, analysis, commentary)`. -/
def extractChannelsLoop (extractFinalOnly : Bool) :
    List HMessage → List (String × String) → String → Option String → Option String →
    List (String × String) × String × Option String × Option String
  | [], channels, final, analysis, commentary => (channels, final, analysis, commentary)
  | m :: rest, channels, final, analysis, commentary =>
    match m.channel with
    | none => extractChannelsLoop extractFinalOnly rest channels final analysis commentary
    | some ch =>
      if ch = "" then
        extractChannelsLoop extractFinalOnly rest channels final analysis commentary
      else
        if ch = "final" then
          if extractFinalOnly then (upsert channels ch m.content, m.content, analysis, commentary)
          else extractChannelsLoop extractFinalOnly rest (upsert channels ch m.content)
            m.content analysis commentary
        else if extractFinalOnly = false ∧ ch = "analysis" then
          extractChannelsLoop extractFinalOnly rest (upsert channels ch m.content)
            final (some m.content) commentary
        else if extractFinalOnly = false ∧ ch = "commentary" then
          extractChannelsLoop extractFinalOnly rest (upsert channels ch m.content)
            final analysis (some m.content)
        else
          extractChannelsLoop extractFinalOnly rest (upsert channels ch m.content)
            final analysis commentary

/-- `HarmonyResponseParser.parse_response_tokens`: empty input raises
`ValueError`; the token loop swallows per-token errors; a failure of
`process_eos` is caught by the outer handler, which returns an empty `final`
with the cause recorded under the `error` metadata key. The wall-clock
`parse_time_ms` is rendered as `0`. -/
def parseResponseTokens {σ : Type} (P : HarmonyStreamParser σ) (init : σ)
    (tokenIds : List Int) (extractFinalOnly : Bool) :
    Except String ParsedHarmonyResponse :=
  if tokenIds.isEmpty then .error "Token IDs cannot be empty"
  else
    match P.processEos (runParserTokens P init tokenIds) with
    | .error e =>
      .ok ⟨"", none, none, none,
        [("error", e), ("token_count", toString tokenIds.length)]⟩
    | .ok st2 =>
      match extractChannelsLoop extractFinalOnly (P.messages st2) [] "" none none with
      | (channels, final, analysis, commentary) =>
        .ok ⟨final, analysis, commentary,
          (if channels.isEmpty then none else some channels),
          [("token_count", toString tokenIds.length),
           ("parse_time_ms", "0"),
           ("message_count", toString (P.messages st2).length)]⟩

/-- Claim C1: for every non-empty token list, `parse_response_tokens` returns
a `ParsedHarmonyResponse` without raising, whatever the underlying
`StreamableParser` does; when the internal parsing fails, `final` is the
empty string and the metadata map records the cause under the `error` key;
for an empty token list it raises `ValueError`. -/
theorem parse_response_tokens_contract {σ : Type} (P : HarmonyStreamParser σ) (init : σ)
    (tokenIds : List Int) (extractFinalOnly : Bool) :
    (tokenIds ≠ [] →
      ∃ r, parseResponseTokens P init tokenIds extractFinalOnly = .ok r ∧
        (∀ e, P.processEos (runParserTokens P init tokenIds) = .error e →
          r.final = "" ∧ r.metadata.lookup "error" = some e)) ∧
    (tokenIds = [] →
      parseResponseTokens P init tokenIds extractFinalOnly =
        .error "Token IDs cannot be empty") := by
  constructor
  · intro hne
    unfold parseResponseTokens
    rw [if_neg (by simp [List.isEmpty_iff, hne])]
    cases heos : P.processEos (runParserTokens P init tokenIds) with
    | error e =>
      refine ⟨_, rfl, ?_⟩
      intro e2 he2
      injection he2 with he3
      subst he3
      exact ⟨rfl, rfl⟩
    | ok st2 =>
      refine ⟨_, rfl, ?_⟩
      intro e2 he2
      cases he2
  · intro he
    subst he
    rfl

/-- Witness for C1: a one-token input against a parser whose `process_eos`
raises yields an `ok` result with empty `final` and the recorded error. -/
theorem parse_response_tokens_contract_witness :
    ([1] : List Int) ≠ [] ∧
    ∃ r, parseResponseTokens
        ⟨fun _ _ => .ok (), fun _ => .error "boom", fun _ => []⟩ () [1] false = .ok r ∧
      (r.final = "" ∧ r.metadata.lookup "error" = some "boom") := by
  refine ⟨by decide, ?_⟩
  obtain ⟨r, hr, hprop⟩ :=
    (parse_response_tokens_contract
      (⟨fun _ _ => .ok (), fun _ => .error "boom", fun _ => []⟩ :
        HarmonyStreamParser Unit) () [1] false).1 (by decide)
  exact ⟨r, hr, hprop "boom" rfl⟩

/-! ## String-based Harmony response parsing
(`GPTOSSAdapter._parse_harmony_response`) -/

/-- The Harmony special tokens as character lists. -/
def tokStart : List Char := "<|start|>".data

/-- The message-close token. -/
def tokEnd : List Char := "<|end|>".data

/-- The message-body token. -/
def tokMessage : List Char := "<|message|>".data

/-- The channel-header token. -/
def tokChannel : List Char := "<|channel|>".data

/-- The terminal return token. -/
def tokReturn : List Char := "<|return|>".data

/-- The optional regex prefix `<|start|>assistant`. -/
def tokStartAssistant : List Char := "<|start|>assistant".data

/-- Split a character list at the first occurrence of `tok`, returning the
parts before and after it (Python `s.split(tok, 1)` when it matches). -/
def splitFirst (tok : List Char) : List Char → Option (List Char × List Char)
  | [] => none
  | c :: rest =>
    if tok.isPrefixOf (c :: rest) then some ([], (c :: rest).drop tok.length)
    else
      match splitFirst tok rest with
      | some (a, b) => some (c :: a, b)
      | none => none

/-- Split at the first occurrence of either stop token `<|end|>` or
`<|return|>` (the lazy `(?:<\|end\|>|<\|return\|>)` tail of the regex in
`_parse_harmony_response`). -/
def splitFirstStop : List Char → Option (List Char × List Char)
  | [] => none
  | c :: rest =>
    if tokEnd.isPrefixOf (c :: rest) then some ([], (c :: rest).drop tokEnd.length)
    else if tokReturn.isPrefixOf (c :: rest) then some ([], (c :: rest).drop tokReturn.length)
    else
      match splitFirstStop rest with
      | some (a, b) => some (c :: a, b)
      | none => none

/-- Strip a literal token prefix. -/
def stripPrefixTok (tok s : List Char) : Option (List Char) :=
  if tok.isPrefixOf s then some (s.drop tok.length) else none

/-- The anchored start of the regex of `_parse_harmony_response`:
the greedy optional prefix `(?:<\|start\|>assistant)?` followed by the literal
`<\|channel\|>`. -/
def channelAnchor (s : List Char) : Option (List Char) :=
  match stripPrefixTok (tokStartAssistant ++ tokChannel) s with
  | some r => some r
  | none => stripPrefixTok tokChannel s

/-- After the anchor, the channel is captured lazily up to the first
`<|message|>` and the content lazily up to the first stop token. -/
def matchChannelAt (s : List Char) : Option ((List Char × List Char) × List Char) :=
  (channelAnchor s).bind (fun r1 =>
    (splitFirst tokMessage r1).bind (fun pr =>
      (splitFirstStop pr.2).map (fun qr => ((pr.1, qr.1), qr.2))))

/-- `re.findall` over the pattern: scan left to right, resuming after each
match. The fuel starts at the input length and each recursive call consumes at
least one character, so it never runs out. -/
def findChannelMatchesF : Nat → List Char → List (List Char × List Char)
  | 0, _ => []
  | _ + 1, [] => []
  | fuel + 1, c :: rest =>
    match matchChannelAt (c :: rest) with
    | some (m, r3) => m :: findChannelMatchesF fuel r3
    | none => findChannelMatchesF fuel rest

/-- All matches of the channel pattern in the raw output. -/
def findChannelMatches (s : List Char) : List (List Char × List Char) :=
  findChannelMatchesF s.length s

/-- One anchored attempt of the fallback pattern `<\|[^\|]+\|>`: a `<|`, a
non-empty run of non-pipe characters, then `|>`. Returns the rest after the
match. -/
def matchSpecialTokAt : List Char → Option (List Char)
  | '<' :: '|' :: rest =>
    if (rest.takeWhile (fun c => c ≠ '|')).isEmpty then none
    else
      match rest.dropWhile (fun c => c ≠ '|') with
      | '|' :: '>' :: r => some r
      | _ => none
  | _ => none

/-- `re.sub(pattern, "", s)` for the fallback pattern, with fuel as in
`findChannelMatchesF`. -/
def stripSpecialTokensF : Nat → List Char → List Char
  | 0, s => s
  | _ + 1, [] => []
  | fuel + 1, c :: rest =>
    match matchSpecialTokAt (c :: rest) with
    | some r => stripSpecialTokensF fuel r
    | none => c :: stripSpecialTokensF fuel rest

/-- The fallback strip of `_parse_harmony_response`. -/
def stripSpecialTokens (s : List Char) : List Char :=
  stripSpecialTokensF s.length s

/-- `GPTOSSAdapter._parse_harmony_response`: collect the `final` and
`analysis` captures in match order, join and strip them; fall back to the
special-token strip when no `final` capture exists. Returns
`(final_text, analysis_text)`. -/
def parseHarmonyResponseStr (raw : List Char) : List Char × List Char :=
  let allMatches := findChannelMatches raw
  let finalContent := (allMatches.filter (fun m => pyStrip m.1 = "final".data)).map (fun m => m.2)
  let analysisContent :=
    (allMatches.filter (fun m => pyStrip m.1 = "analysis".data)).map (fun m => m.2)
  let finalText :=
    if finalContent.isEmpty then
      let fallback := pyStrip (stripSpecialTokens raw)
      if fallback.isEmpty then [] else fallback
    else pyStrip finalContent.flatten
  let analysisText := if analysisContent.isEmpty then [] else pyStrip analysisContent.flatten
  (finalText, analysisText)

/-- Counterexample to C2: on the raw output
`<|channel|>final<|message|>a<|call|>b<|end|>` the channel-match path returns
the final text `a<|call|>b`, which contains the substring `<|call|>` of the
form `<|...|>`. -/
theorem parse_harmony_final_counterexample :
    (parseHarmonyResponseStr "<|channel|>final<|message|>a<|call|>b<|end|>".data).1 =
      "a<|call|>b".data ∧
    "<|call|>".data <:+:
      (parseHarmonyResponseStr "<|channel|>final<|message|>a<|call|>b<|end|>".data).1 := by
  constructor <;> decide

/-- Helper: a stop split decomposes the input around one of the stop tokens. -/
lemma splitFirstStop_eq (s a b : List Char) (h : splitFirstStop s = some (a, b)) :
    ∃ stop, (stop = tokEnd ∨ stop = tokReturn) ∧ a ++ (stop ++ b) = s := by
  induction s generalizing a b with
  | nil => simp [splitFirstStop] at h
  | cons c rest ih =>
    unfold splitFirstStop at h
    by_cases h1 : tokEnd.isPrefixOf (c :: rest)
    · rw [if_pos h1] at h
      injection h with h2
      injection h2 with ha hb
      obtain ⟨t, ht⟩ := List.isPrefixOf_iff_prefix.mp h1
      refine ⟨tokEnd, Or.inl rfl, ?_⟩
      rw [← ha, ← hb, ← ht, List.nil_append, List.drop_left]
    · rw [if_neg h1] at h
      by_cases h2 : tokReturn.isPrefixOf (c :: rest)
      · rw [if_pos h2] at h
        injection h with h3
        injection h3 with ha hb
        obtain ⟨t, ht⟩ := List.isPrefixOf_iff_prefix.mp h2
        refine ⟨tokReturn, Or.inr rfl, ?_⟩
        rw [← ha, ← hb, ← ht, List.nil_append, List.drop_left]
      · rw [if_neg h2] at h
        cases hrest : splitFirstStop rest with
        | none => rw [hrest] at h; cases h
        | some pr =>
          rcases pr with ⟨a0, b0⟩
          rw [hrest] at h
          injection h with h3
          injection h3 with ha hb
          obtain ⟨stop, hstop, heq⟩ := ih a0 b0 hrest
          refine ⟨stop, hstop, ?_⟩
          rw [← ha, ← hb, List.cons_append, heq]

/-- Helper: the captured content of a stop split contains neither stop token. -/
lemma splitFirstStop_content_clean (s a b : List Char) (h : splitFirstStop s = some (a, b)) :
    ¬ (tokEnd <:+: a) ∧ ¬ (tokReturn <:+: a) := by
  induction s generalizing a b with
  | nil => simp [splitFirstStop] at h
  | cons c rest ih =>
    unfold splitFirstStop at h
    by_cases h1 : tokEnd.isPrefixOf (c :: rest)
    · rw [if_pos h1] at h
      injection h with h2
      injection h2 with ha hb
      subst ha
      constructor <;> · rw [List.infix_nil]; decide
    · rw [if_neg h1] at h
      by_cases h2 : tokReturn.isPrefixOf (c :: rest)
      · rw [if_pos h2] at h
        injection h with h3
        injection h3 with ha hb
        subst ha
        constructor <;> · rw [List.infix_nil]; decide
      · rw [if_neg h2] at h
        cases hrest : splitFirstStop rest with
        | none => rw [hrest] at h; cases h
        | some pr =>
          rcases pr with ⟨a0, b0⟩
          rw [hrest] at h
          injection h with h3
          injection h3 with ha hb
          subst ha
          obtain ⟨stop, hstop, heq⟩ := splitFirstStop_eq rest a0 b0 hrest
          obtain ⟨ihe, ihr⟩ := ih a0 b0 hrest
          constructor
          · intro hinf
            rcases List.infix_cons_iff.mp hinf with hpre | hinf2
            · apply h1
              apply List.isPrefixOf_iff_prefix.mpr
              calc tokEnd <+: c :: a0 := hpre
                _ <+: (c :: a0) ++ (stop ++ b0) := List.prefix_append _ _
                _ = c :: rest := by rw [List.cons_append, heq]
            · exact ihe hinf2
          · intro hinf
            rcases List.infix_cons_iff.mp hinf with hpre | hinf2
            · apply h2
              apply List.isPrefixOf_iff_prefix.mpr
              calc tokReturn <+: c :: a0 := hpre
                _ <+: (c :: a0) ++ (stop ++ b0) := List.prefix_append _ _
                _ = c :: rest := by rw [List.cons_append, heq]
            · exact ihr hinf2

/-- Helper: a channel-pattern match captures content without stop tokens. -/
lemma matchChannelAt_content (s ch content r3 : List Char)
    (h : matchChannelAt s = some ((ch, content), r3)) :
    ¬ (tokEnd <:+: content) ∧ ¬ (tokReturn <:+: content) := by
  unfold matchChannelAt at h
  cases hp : channelAnchor s with
  | none => rw [hp] at h; simp at h
  | some r1 =>
    rw [hp, Option.some_bind] at h
    cases hm : splitFirst tokMessage r1 with
    | none => rw [hm] at h; simp at h
    | some pr =>
      rw [hm, Option.some_bind] at h
      cases hs : splitFirstStop pr.2 with
      | none => rw [hs] at h; simp at h
      | some qr =>
        rw [hs] at h
        simp only [Option.map] at h
        injection h with h2
        have hcontent : qr.1 = content := congrArg (fun x => x.1.2) h2
        rw [← hcontent]
        exact splitFirstStop_content_clean pr.2 qr.1 qr.2 (by rw [hs])

/-- Helper: every capture collected by the scanner is stop-token free. -/
lemma findChannelMatchesF_content (fuel : Nat) (s : List Char) (m : List Char × List Char)
    (hm : m ∈ findChannelMatchesF fuel s) :
    ¬ (tokEnd <:+: m.2) ∧ ¬ (tokReturn <:+: m.2) := by
  induction fuel generalizing s with
  | zero => simp [findChannelMatchesF] at hm
  | succ fuel ih =>
    cases s with
    | nil => simp [findChannelMatchesF] at hm
    | cons c rest =>
      cases hmat : matchChannelAt (c :: rest) with
      | none =>
        simp only [findChannelMatchesF, hmat] at hm
        exact ih rest hm
      | some pr =>
        rcases pr with ⟨⟨ch, content⟩, r3⟩
        simp only [findChannelMatchesF, hmat] at hm
        rcases List.mem_cons.mp hm with h | h
        · subst h
          exact matchChannelAt_content (c :: rest) ch content r3 hmat
        · exact ih r3 h

/-- Claim C2 (amended): each individual channel-captured message body produced
by the regex of `_parse_harmony_response` contains neither `<|end|>` nor
`<|return|>` (each capture stops at the first terminal marker); the joined
`final` text and the fallback text may still contain substrings of the form
`<|...|>`, so the claimed absence of all `<|...|>` substrings does not hold. -/
theorem parse_harmony_matches_amended (raw : List Char) (m : List Char × List Char)
    (hm : m ∈ findChannelMatches raw) :
    ¬ (tokEnd <:+: m.2) ∧ ¬ (tokReturn <:+: m.2) :=
  findChannelMatchesF_content raw.length raw m hm

/-- Witness for C2 (amended) at a concrete well-formed raw output. -/
theorem parse_harmony_matches_amended_witness :
    ("final".data, "x".data) ∈ findChannelMatches "<|channel|>final<|message|>x<|end|>".data ∧
    ¬ (tokEnd <:+: "x".data) ∧ ¬ (tokReturn <:+: "x".data) := by
  have h := parse_harmony_matches_amended "<|channel|>final<|message|>x<|end|>".data
    ("final".data, "x".data) (by decide)
  exact ⟨by decide, h.1, h.2⟩

/-! ## Streaming channel filtering (`GPTOSSAdapter.generate_stream`) -/

/-- The `<|` prefix tested by the raw-token guard
`token.startswith("<|")`. -/
def tokLt : List Char := "<|".data

/-- The channel-transition detection inside the streaming loop: when the
buffer contains both `<|channel|>` and `<|message|>`, the channel name is the
text between the first `<|channel|>` and the following `<|channel|>` or
`<|message|>` boundary (Python
`buffer.split("<|channel|>")[1].split("<|message|>")[0]`, stripped), and the
buffer is reset to the text after the first `<|message|>`. -/
def detectChannel (buffer : List Char) : Option (List Char × List Char) :=
  match splitFirst tokChannel buffer with
  | none => none
  | some pr =>
    match splitFirst tokMessage buffer with
    | none => none
    | some mr =>
      some (pyStrip
        (match splitFirst tokMessage
            (match splitFirst tokChannel pr.2 with
             | some qr => qr.1
             | none => pr.2) with
         | some qr => qr.1
         | none =>
           match splitFirst tokChannel pr.2 with
           | some qr => qr.1
           | none => pr.2), mr.2)

/-- The loop state of `generate_stream`: `current_channel`, `buffer`,
`in_final_channel`. -/
structure StreamFilterState where
  currentChannel : Option (List Char)
  buffer : List Char
  inFinalChannel : Bool
deriving DecidableEq, Repr

/-- The initial loop state (`current_channel = None`, empty buffer,
`in_final_channel = False`). -/
def initStreamFilterState : StreamFilterState := ⟨none, [], false⟩

/-- One iteration of the streaming loop body: append the token to the buffer;
on a detected channel transition update the state and emit nothing
(`continue`); otherwise forward the token only when the current channel is
`final`, the token is non-empty, and it does not start with `<|`. -/
def streamStep (st : StreamFilterState) (token : List Char) :
    StreamFilterState × Option (List Char) :=
  match detectChannel (st.buffer ++ token) with
  | some pr => (⟨some pr.1, pr.2, pr.1 == "final".data⟩, none)
  | none =>
    if st.inFinalChannel ∧ token ≠ [] ∧ ¬ tokLt.isPrefixOf token then
      (⟨st.currentChannel, st.buffer ++ token, st.inFinalChannel⟩, some token)
    else
      (⟨st.currentChannel, st.buffer ++ token, st.inFinalChannel⟩, none)

/-- Run the streaming loop, recording each forwarded chunk together with the
loop state at the moment of forwarding. -/
def runStreamFilter : StreamFilterState → List (List Char) → List (StreamFilterState × List Char)
  | _, [] => []
  | st, t :: rest =>
    match streamStep st t with
    | (st2, some out) => (st, out) :: runStreamFilter st2 rest
    | (st2, none) => runStreamFilter st2 rest

/-- The loop invariant: `in_final_channel` is set only when the detected
current channel is `final`. -/
def streamStateInv (st : StreamFilterState) : Prop :=
  st.inFinalChannel = true → st.currentChannel = some "final".data

/-- Helper: one loop iteration preserves the invariant. -/
lemma streamStep_inv (st : StreamFilterState) (token : List Char)
    (h : streamStateInv st) : streamStateInv (streamStep st token).1 := by
  intro hf
  rcases hd : detectChannel (st.buffer ++ token) with _ | pr
  · simp only [streamStep, hd] at hf ⊢
    split_ifs at hf ⊢ <;> exact h hf
  · simp only [streamStep, hd] at hf ⊢
    exact congrArg some (eq_of_beq hf)

/-- Helper: an emitted chunk implies the guard held at that state. -/
lemma streamStep_some (st : StreamFilterState) (token out : List Char)
    (h : (streamStep st token).2 = some out) :
    st.inFinalChannel = true ∧ out = token ∧ token ≠ [] ∧
      tokLt.isPrefixOf token = false := by
  unfold streamStep at h
  cases hd : detectChannel (st.buffer ++ token) with
  | some pr => rw [hd] at h; simp at h
  | none =>
    rw [hd] at h
    split_ifs at h with hc
    injection h with h2
    refine ⟨hc.1, h2.symm, hc.2.1, ?_⟩
    have h3 := hc.2.2
    simp only [Bool.not_eq_true] at h3
    exact h3

/-- Helper: every recorded emission happened in a `final`-channel state at a
non-special token. -/
lemma runStreamFilter_emitted (tokens : List (List Char)) (st : StreamFilterState)
    (hinv : streamStateInv st) (p : StreamFilterState × List Char)
    (hp : p ∈ runStreamFilter st tokens) :
    p.1.inFinalChannel = true ∧ p.1.currentChannel = some "final".data ∧
    p.2 ≠ [] ∧ tokLt.isPrefixOf p.2 = false := by
  induction tokens generalizing st with
  | nil => simp [runStreamFilter] at hp
  | cons t rest ih =>
    have hinv2 := streamStep_inv st t hinv
    cases hstep : streamStep st t with
    | mk st2 emitted =>
      rw [hstep] at hinv2
      cases emitted with
      | none =>
        simp only [runStreamFilter, hstep] at hp
        exact ih st2 hinv2 hp
      | some out =>
        simp only [runStreamFilter, hstep] at hp
        rcases List.mem_cons.mp hp with heq | hmem
        · subst heq
          have hg := streamStep_some st t out (by rw [hstep])
          exact ⟨hg.1, hinv hg.1, by rw [hg.2.1]; exact hg.2.2.1,
            by rw [hg.2.1]; exact hg.2.2.2⟩
        · exact ih st2 hinv2 hmem

/-- Claim C3: in the streaming generation path, every chunk forwarded to the
client is emitted only while the detected current channel is `final` (so
chunks are never forwarded while the detected channel is `analysis` or
`commentary`), and no forwarded token text is a raw `<|...|>` special token
(it is non-empty and does not start with `<|`). -/
theorem stream_filter_final_only (tokens : List (List Char))
    (p : StreamFilterState × List Char)
    (hp : p ∈ runStreamFilter initStreamFilterState tokens) :
    p.1.inFinalChannel = true ∧
    p.1.currentChannel = some "final".data ∧
    p.1.currentChannel ≠ some "analysis".data ∧
    p.1.currentChannel ≠ some "commentary".data ∧
    p.2 ≠ [] ∧ tokLt.isPrefixOf p.2 = false := by
  have h := runStreamFilter_emitted tokens initStreamFilterState
    (by intro hx; exact absurd hx (by decide)) p hp
  refine ⟨h.1, h.2.1, ?_, ?_, h.2.2.1, h.2.2.2⟩
  · rw [h.2.1]; decide
  · rw [h.2.1]; decide

/-- Witness for C3: a stream that opens the `final` channel and then sends
`hi` forwards exactly one chunk, from a `final`-channel state. -/
theorem stream_filter_final_only_witness :
    (⟨⟨some "final".data, [], true⟩, "hi".data⟩ : StreamFilterState × List Char) ∈
      runStreamFilter initStreamFilterState
        ["<|channel|>final<|message|>".data, "hi".data] ∧
    (⟨some "final".data, [], true⟩ : StreamFilterState).inFinalChannel = true ∧
    "hi".data ≠ [] ∧ tokLt.isPrefixOf "hi".data = false := by
  have hmem : (⟨⟨some "final".data, [], true⟩, "hi".data⟩ :
      StreamFilterState × List Char) ∈
      runStreamFilter initStreamFilterState
        ["<|channel|>final<|message|>".data, "hi".data] := by decide
  have h := stream_filter_final_only
    ["<|channel|>final<|message|>".data, "hi".data] _ hmem
  exact ⟨hmem, h.1, h.2.2.2.2.1, h.2.2.2.2.2⟩
